import Mathlib

/-!
Verification of the bubble-shooter core (`src/js/index.ts`).

Embedding conventions, chosen to mirror the JavaScript source exactly:

* A JavaScript object with string keys `"x y"` built from lattice
  coordinates is modelled as an insertion-ordered association list
  `List (Coord × Cell)`.  JS object iteration (`Object.entries`,
  `Object.keys`, `Object.values`) visits keys in insertion order, and
  the keys here always contain a space, hence are never array indices;
  filtering / `delete` keeps the order of the remaining entries, so a
  `List.filter` is the exact counterpart of the source's build-then-delete
  loops.
* Every x coordinate occurring in the game is an integer multiple of 0.5
  and every y coordinate an integer (grid creation produces only such
  points and all neighbour offsets preserve this).  We therefore store x
  in half-units: `xh = 2 * x`.  The six neighbour offsets
  (±0.5, ±1) and (±1, 0) of `getSurroundingBubbles` become (±1, ±1) and
  (±2, 0).
* Euclidean distances between lattice points are only ever compared with
  each other (`Math.min`, `===` in `landBullet`).  Since
  `d ↦ Float.sqrt (d / 4)` is strictly monotone and injective on the
  (natural-number) squared distances scaled by 4, comparing the scaled
  integer squares `(Δxh)² + 4·(Δy)²` is faithful to comparing the computed
  floating-point distances.
* The projectile position is real-valued; it is modelled over `ℚ`
  (numerals of the source read as exact rationals).  The collision test
  `hypot Δx Δy < 1.12` is modelled as `Δx² + Δy² < (28/25)²`, which is
  equivalent since both sides are nonnegative.
* The recursion of `explode` terminates because each recursive call is
  made immediately after a Colored cell is cleared; we model it with a
  fuel parameter and instantiate the fuel with `coloredCount g + 1`,
  which is provably sufficient (every nested call strictly decreases the
  number of Colored cells, so the nesting depth never exceeds the fuel).
-/

set_option maxHeartbeats 1000000

/-- The three palette colors of the source's `enum Color`. -/
inductive Color where
  | orange
  | white
  | blue
deriving DecidableEq, Repr

/-- A lattice coordinate: x stored in half-units (`xh = 2x`), y as is. -/
abbrev Coord := Int × Int

/-- A cell state: `none` is the source's `null` (Empty), `some c` a Colored cell. -/
abbrev Cell := Option Color

/-- The source's `BubbleGrid` object, as an insertion-ordered association list. -/
abbrev BubbleGrid := List (Coord × Cell)

/-- Reading `bubbles[key]`: first entry with the given key (JS keys are unique,
so first-match agrees with object lookup; `none` means the key is absent). -/
def lookupCell (g : BubbleGrid) (k : Coord) : Option Cell :=
  (g.find? (fun e => decide (e.1 = k))).map (fun e => e.2)

/-- Writing `bubbles[key] = v`: update the entry in place if the key exists,
otherwise append it at the end (JS object assignment semantics). -/
def setCell : BubbleGrid → Coord → Cell → BubbleGrid
  | [], k, v => [(k, v)]
  | e :: rest, k, v => if e.1 = k then (k, v) :: rest else e :: setCell rest k v

/-- The key list (`Object.keys`) of a grid. -/
def keysOf (g : BubbleGrid) : List Coord := g.map (fun e => e.1)

/-- JS objects have pairwise distinct keys; grids reachable in the source
always satisfy this. -/
abbrev NodupKeys (g : BubbleGrid) : Prop := (keysOf g).Nodup

/-- The six lattice-offset tests of `getSurroundingBubbles`
(up-left, up-right, left, right, down-left, down-right), in half-units. -/
def isNeighborOf (c k : Coord) : Bool :=
  decide ((k.1 = c.1 - 1 ∧ k.2 = c.2 + 1) ∨
    (k.1 = c.1 + 1 ∧ k.2 = c.2 + 1) ∨
    (k.1 = c.1 - 2 ∧ k.2 = c.2) ∨
    (k.1 = c.1 + 2 ∧ k.2 = c.2) ∨
    (k.1 = c.1 - 1 ∧ k.2 = c.2 - 1) ∨
    (k.1 = c.1 + 1 ∧ k.2 = c.2 - 1))

/-- The six neighbour offsets, in half-units: (−0.5,+1), (+0.5,+1), (−1,0),
(+1,0), (−0.5,−1), (+0.5,−1) of the source become these integer pairs. -/
def neighborOffsets : List Coord := [(-1, 1), (1, 1), (-2, 0), (2, 0), (-1, -1), (1, -1)]

/-- First phase of `getSurroundingBubbles`: collect the grid entries lying at
one of the six offsets around `c` (in grid enumeration order). -/
def surrounding (g : BubbleGrid) (c : Coord) : BubbleGrid :=
  g.filter (fun e => isNeighborOf c e.1)

/-- `getSurroundingBubbles(coord, keepOnly?)`: collect the neighbours, then
delete the entries that do not match (`keepOnly` absent keeps only free
spots, i.e. `null` cells; otherwise keep exactly the `keepOnly`-colored ones). -/
def getSurroundingBubbles (g : BubbleGrid) (c : Coord) (keepOnly : Option Color) : BubbleGrid :=
  match keepOnly with
  | none => (surrounding g c).filter (fun e => decide (e.2 = none))
  | some col => (surrounding g c).filter (fun e => decide (e.2 = some col))

/-- The keys of `getSurroundingBubbles(coord, bulletColor)`, the work list of
one `explode` call. -/
def surroundingKeys (g : BubbleGrid) (c : Coord) (bc : Color) : List Coord :=
  (getSurroundingBubbles g c (some bc)).map (fun e => e.1)

/-- Number of Colored cells of the grid (used as the fuel bound of `explode`). -/
def coloredCount (g : BubbleGrid) : Nat :=
  (g.filter (fun e => e.2.isSome)).length

/-- One iteration of the `for` loop in `explode`: the guard is the source's
`bubbles[key] !== null` (true also for absent keys), then award 10 points,
clear the cell and recurse. -/
def explodeStep (recur : BubbleGrid → Int → Coord → BubbleGrid × Int)
    (gs : BubbleGrid × Int) (k : Coord) : BubbleGrid × Int :=
  if lookupCell gs.1 k = some none then gs
  else recur (setCell gs.1 k none) (gs.2 + 10) k

/-- Fuel-indexed `explode(coord)`: take the snapshot of same-colored
neighbours, then run the loop, recursing with one unit of fuel less. -/
def explodeA : Nat → Color → BubbleGrid → Int → Coord → BubbleGrid × Int
  | 0, _, g, s, _ => (g, s)
  | fuel + 1, bc, g, s, c =>
    (surroundingKeys g c bc).foldl (explodeStep (explodeA fuel bc)) (g, s)

/-- `explode(coord)` with provably sufficient fuel. -/
def explode (bc : Color) (g : BubbleGrid) (s : Int) (c : Coord) : BubbleGrid × Int :=
  explodeA (coloredCount g + 1) bc g s c

/-- Scaled squared Euclidean distance between two lattice points:
`4 * ((Δxh/2)² + Δy²) = Δxh² + 4·Δy²`. -/
def dSq (a b : Coord) : Nat :=
  ((a.1 - b.1) * (a.1 - b.1) + 4 * ((a.2 - b.2) * (a.2 - b.2))).toNat

/-- `Math.min(...values)`: `none` for the empty list (JS yields `Infinity`,
on which the subsequent `find` fails). -/
def listMin : List Nat → Option Nat
  | [] => none
  | x :: xs => some (xs.foldl min x)

/-- `landBullet` / `Bullet.land`: free neighbour spots of the wanted landing
position, their distances, the minimum, the first key attaining it; that cell
receives the bullet's color.  `none` models the source's crash (a `TypeError`
on `undefined`, thrown before any mutation) when no free spot exists. -/
def landBullet (g : BubbleGrid) (bc : Color) (wanted : Coord) :
    Option (BubbleGrid × Coord) :=
  let distances := (getSurroundingBubbles g wanted none).map (fun e => (e.1, dSq e.1 wanted))
  match listMin (distances.map (fun e => e.2)) with
  | none => none
  | some m =>
    match distances.find? (fun e => decide (e.2 = m)) with
    | none => none
    | some e => some (setCell g e.1 (some bc), e.1)

/-- The win test of `newRound`: `Object.values(bubbles).every(x => x === null)`. -/
def checkWin (g : BubbleGrid) : Bool := g.all (fun e => decide (e.2 = none))

/-- A projectile position (real-valued in the source, exact rationals here). -/
abbrev QPos := ℚ × ℚ

/-- A lattice coordinate as a position (x was stored in half-units). -/
def coordToQ (k : Coord) : QPos := ((k.1 : ℚ) / 2, (k.2 : ℚ))

/-- Squared Euclidean distance of positions. -/
def qDistSq (a b : QPos) : ℚ :=
  (a.1 - b.1) * (a.1 - b.1) + (a.2 - b.2) * (a.2 - b.2)

/-- The collision proximity threshold 1.12, squared. -/
def collideThresholdSq : ℚ := 784 / 625

/-- `bulletIsAboutToCollide` / `Bullet.aboutToCollide`: scan the grid in
enumeration order for the first Colored cell strictly within distance 1.12 of
the bullet; its coordinate becomes the wanted landing position. -/
def bulletIsAboutToCollide (g : BubbleGrid) (pos : QPos) : Option Coord :=
  (g.find? (fun e =>
      e.2.isSome && decide (qDistSq (coordToQ e.1) pos < collideThresholdSq))).map
    (fun e => e.1)

/-- `PLAYGROUND_WIDTH` of the source. -/
def playgroundWidth : ℚ := 40

/-- `PLAYGROUND_HEIGHT` of the source. -/
def playgroundHeight : ℚ := 30

/-- The out-of-bounds test of `fireBullet`: current position outside the
horizontal band [−(width/2+1), width/2+1] or the vertical band [0, height]. -/
def bulletOutOfBounds (pos : QPos) : Bool :=
  decide (pos.1 < -(playgroundWidth / 2 + 1) ∨ pos.1 > playgroundWidth / 2 + 1 ∨
    pos.2 < 0 ∨ pos.2 > playgroundHeight)

/-- Exit of the flight loop of `fireBullet`: a collision with the recorded
wanted landing position and the bullet position at that moment, an
out-of-bounds abort, or fuel exhaustion (an artifact of the embedding; the
claims about flights supply sufficient fuel). -/
inductive FlightResult where
  | landed (wanted : Coord) (pos : QPos)
  | oob
  | fuelOut
deriving DecidableEq, Repr

/-- The `while (!bulletIsAboutToCollide())` loop of `fireBullet`: test
collision at the current position first, then the bounds, then move the
bullet to `direction * time` and advance time by the fixed step 0.75. -/
def flightLoop (g : BubbleGrid) (d : QPos) : Nat → QPos → ℚ → FlightResult
  | 0, _, _ => .fuelOut
  | fuel + 1, pos, t =>
    match bulletIsAboutToCollide g pos with
    | some w => .landed w pos
    | none =>
      if bulletOutOfBounds pos then .oob
      else flightLoop g d fuel (d.1 * t, d.2 * t) (t + 3 / 4)

/-- The mutable state relevant to the claims: the grid and the score. -/
structure GameState where
  bubbles : BubbleGrid
  score : Int
deriving DecidableEq, Repr

/-- How one shot ended; the `won` flag is the win signal of the `newRound`
call terminating the shot, `crash` the unlanded-with-no-free-spot crash. -/
inductive Outcome where
  | oobExit (won : Bool)
  | landedAt (c : Coord) (won : Bool)
  | crash
  | fuelOut
deriving DecidableEq, Repr

/-- One whole shot (`fireBullet`): the bullet starts at the origin with
`time = 0` (as set by the constructor / `newRound`), flies with frozen
direction `d`; an out-of-bounds exit costs 10 points, a collision lands the
bullet (placing it on the nearest free neighbour spot), explodes the
same-colored cluster, and ends the round with the win check. -/
def fireBullet (st : GameState) (bc : Color) (d : QPos) (fuel : Nat) :
    GameState × Outcome :=
  match flightLoop st.bubbles d fuel (0, 0) 0 with
  | .fuelOut => (st, .fuelOut)
  | .oob => ({ st with score := st.score - 10 }, .oobExit (checkWin st.bubbles))
  | .landed w _pos =>
    match landBullet st.bubbles bc w with
    | none => (st, .crash)
    | some (g1, c) =>
      let r := explode bc g1 st.score c
      ({ bubbles := r.1, score := r.2 }, .landedAt c (checkWin r.1))

/-- The coordinate written by `createBubbleGrid` for `(row, col)`:
`x = col + (row odd ? 0.5 : 0) − width/2`, `y = −row + height`, in half-units. -/
def gridCoord (w h row col : Nat) : Coord :=
  (2 * (col : Int) + (if row % 2 ≠ 0 then 1 else 0) - (w : Int),
    (h : Int) - (row : Int))

/-- `createBubbleGrid`: the dense row-major seeding; rows below 5 are Colored
with a palette sample (modelled by the oracle `pick`), the rest Empty. -/
def createBubbleGrid (w h : Nat) (pick : Nat → Nat → Color) : BubbleGrid :=
  (List.range h).flatMap (fun row =>
    (List.range w).map (fun col =>
      (gridCoord w h row col, if row < 5 then some (pick row col) else none)))

/-- Same-color adjacency chains from `c0` in the fixed grid `g`: the
"connected monochrome component" of the spec (each chained cell lies at one
of the six lattice offsets from the previous one and is Colored `bc`). -/
inductive ReachSame (g : BubbleGrid) (bc : Color) (c0 : Coord) : Coord → Prop where
  | refl : ReachSame g bc c0 c0
  | tail {a b : Coord} : ReachSame g bc c0 a → isNeighborOf a b = true →
      lookupCell g b = some (some bc) → ReachSame g bc c0 b

/-- Evolution relation of the explosion: a cell either keeps its state or is
cleared from Colored to Empty (no key state ever changes in any other way). -/
def EvolRel (g g' : BubbleGrid) : Prop :=
  ∀ k, lookupCell g' k = lookupCell g k ∨
    (lookupCell g' k = some none ∧ ∃ col, lookupCell g k = some (some col))

/-- All members of a work list are keys of the grid. -/
def KeysSub (pending : List Coord) (g : BubbleGrid) : Prop :=
  ∀ k ∈ pending, k ∈ keysOf g

/-- No neighbour of `a` is Colored `bc` in `g'`. -/
def NoBcNb (g' : BubbleGrid) (bc : Color) (a : Coord) : Prop :=
  ∀ b, isNeighborOf a b = true → lookupCell g' b ≠ some (some bc)

/-- Every cell cleared between `g` and `g'` has no `bc`-colored neighbour
left in `g'` (the exit invariant of the explosion recursion). -/
def ClearedInv (g g' : BubbleGrid) (bc : Color) : Prop :=
  ∀ a, lookupCell g a = some (some bc) → lookupCell g' a = some none →
    NoBcNb g' bc a

/-- The frame conditions every explosion step maintains: cells only evolve
from Colored to Empty, the key list is untouched, the Colored-cell count
never grows, and 10 points are awarded per cleared cell. -/
def ExplodePost (gs gs' : BubbleGrid × Int) : Prop :=
  EvolRel gs.1 gs'.1 ∧ keysOf gs'.1 = keysOf gs.1 ∧
    coloredCount gs'.1 ≤ coloredCount gs.1 ∧
    gs'.2 + 10 * (coloredCount gs'.1 : Int) = gs.2 + 10 * (coloredCount gs.1 : Int)

/-! Section: Basic association-list lemmas -/

theorem lookupCell_cons (e : Coord × Cell) (g : BubbleGrid) (k : Coord) :
    lookupCell (e :: g) k = if e.1 = k then some e.2 else lookupCell g k := by
  by_cases h : e.1 = k <;>
    simp [lookupCell, List.find?_cons_of_pos, List.find?_cons_of_neg, h]

theorem lookupCell_setCell (g : BubbleGrid) (k : Coord) (v : Cell) (a : Coord) :
    lookupCell (setCell g k v) a = if k = a then some v else lookupCell g a := by
  induction g with
  | nil =>
    show lookupCell [(k, v)] a = _
    rw [lookupCell_cons]
  | cons e rest ih =>
    by_cases hek : e.1 = k
    · rw [setCell, if_pos hek, lookupCell_cons, lookupCell_cons]
      by_cases hka : k = a
      · rw [if_pos hka, if_pos hka]
      · rw [if_neg hka, if_neg hka, if_neg (fun h : e.1 = a => hka (hek.symm.trans h))]
    · rw [setCell, if_neg hek, lookupCell_cons, lookupCell_cons, ih]
      by_cases hea : e.1 = a
      · rw [if_pos hea, if_neg (fun h : k = a => hek (hea.trans h.symm)), if_pos hea]
      · rw [if_neg hea, if_neg hea]

theorem mem_of_lookupCell {g : BubbleGrid} {k : Coord} {v : Cell}
    (h : lookupCell g k = some v) : (k, v) ∈ g := by
  unfold lookupCell at h
  cases hf : g.find? (fun e => decide (e.1 = k)) with
  | none => rw [hf] at h; simp at h
  | some e =>
    rw [hf] at h
    simp only [Option.map_some', Option.some.injEq] at h
    have hmem := List.mem_of_find?_eq_some hf
    have hkey := List.find?_some hf
    simp only [decide_eq_true_eq] at hkey
    have he : e = (k, v) := Prod.ext hkey h
    rwa [he] at hmem

theorem lookupCell_isSome_iff {g : BubbleGrid} {k : Coord} :
    (lookupCell g k).isSome = true ↔ k ∈ keysOf g := by
  induction g with
  | nil => simp [lookupCell, keysOf]
  | cons e rest ih =>
    rw [lookupCell_cons]
    by_cases h : e.1 = k
    · simp [keysOf, h]
    · simp only [if_neg h, keysOf, List.map_cons, List.mem_cons]
      rw [keysOf] at ih
      constructor
      · intro hs; exact Or.inr (ih.mp hs)
      · rintro (hk | hk)
        · exact absurd hk.symm h
        · exact ih.mpr hk

theorem lookupCell_of_mem_nodup {g : BubbleGrid} {k : Coord} {v : Cell}
    (hnd : NodupKeys g) (h : (k, v) ∈ g) : lookupCell g k = some v := by
  induction g with
  | nil => cases h
  | cons e rest ih =>
    rw [NodupKeys, keysOf, List.map_cons, List.nodup_cons] at hnd
    rcases List.mem_cons.mp h with he | hrest
    · rw [← he, lookupCell_cons, if_pos rfl]
    · rw [lookupCell_cons]
      have hk : k ∈ keysOf rest := List.mem_map.mpr ⟨(k, v), hrest, rfl⟩
      rw [if_neg (fun hek => hnd.1 (by rw [hek]; exact hk))]
      exact ih hnd.2 hrest

theorem keysOf_setCell {g : BubbleGrid} {k : Coord} (v : Cell) (h : k ∈ keysOf g) :
    keysOf (setCell g k v) = keysOf g := by
  induction g with
  | nil => cases h
  | cons e rest ih =>
    by_cases hek : e.1 = k
    · rw [setCell, if_pos hek, keysOf, keysOf, List.map_cons, List.map_cons, hek]
    · have hk : k ∈ keysOf rest := by
        simp only [keysOf, List.map_cons, List.mem_cons] at h
        rcases h with h1 | h2
        · exact absurd h1.symm hek
        · exact h2
      simp only [setCell, if_neg hek, keysOf, List.map_cons]
      exact congrArg (List.cons e.1) (ih hk)

theorem coloredCount_setCell_none {g : BubbleGrid} {k : Coord} {col : Color}
    (h : lookupCell g k = some (some col)) :
    coloredCount (setCell g k none) + 1 = coloredCount g := by
  induction g with
  | nil => simp [lookupCell] at h
  | cons e rest ih =>
    rw [lookupCell_cons] at h
    by_cases hek : e.1 = k
    · rw [if_pos hek] at h
      have he2 : e.2 = some col := by injection h
      rw [setCell, if_pos hek]
      simp [coloredCount, List.filter_cons, he2]
    · rw [if_neg hek] at h
      rw [setCell, if_neg hek]
      have hr := ih h
      by_cases h2 : e.2.isSome
      · simp only [coloredCount, List.filter_cons, h2, if_true, List.length_cons] at hr ⊢
        omega
      · simp only [coloredCount, List.filter_cons] at hr ⊢
        simp only [Bool.not_eq_true] at h2
        simp only [h2, Bool.false_eq_true, if_false] at hr ⊢
        omega

/-! Section: Neighbourhood and snapshot lemmas -/

theorem isNeighborOf_symm (a b : Coord) : isNeighborOf a b = isNeighborOf b a := by
  simp only [isNeighborOf, decide_eq_decide]
  omega

theorem mem_surrounding {g : BubbleGrid} {c : Coord} {e : Coord × Cell} :
    e ∈ surrounding g c ↔ e ∈ g ∧ isNeighborOf c e.1 = true := by
  simp [surrounding, List.mem_filter]

theorem mem_getSurroundingBubbles_some {g : BubbleGrid} {c : Coord} {col : Color}
    {e : Coord × Cell} :
    e ∈ getSurroundingBubbles g c (some col) ↔
      e ∈ g ∧ isNeighborOf c e.1 = true ∧ e.2 = some col := by
  simp only [getSurroundingBubbles, surrounding, List.mem_filter, decide_eq_true_eq,
    and_assoc]

theorem mem_getSurroundingBubbles_none {g : BubbleGrid} {c : Coord} {e : Coord × Cell} :
    e ∈ getSurroundingBubbles g c none ↔
      e ∈ g ∧ isNeighborOf c e.1 = true ∧ e.2 = none := by
  simp only [getSurroundingBubbles, surrounding, List.mem_filter, decide_eq_true_eq,
    and_assoc]

theorem mem_surroundingKeys {g : BubbleGrid} {c : Coord} {bc : Color} {b : Coord}
    (hb : isNeighborOf c b = true) (hl : lookupCell g b = some (some bc)) :
    b ∈ surroundingKeys g c bc := by
  have hmem : (b, some bc) ∈ g := mem_of_lookupCell hl
  exact List.mem_map.mpr
    ⟨(b, some bc), mem_getSurroundingBubbles_some.mpr ⟨hmem, hb, rfl⟩, rfl⟩

theorem surroundingKeys_subset (g : BubbleGrid) (c : Coord) (bc : Color) :
    KeysSub (surroundingKeys g c bc) g := by
  intro k hk
  rcases List.mem_map.mp hk with ⟨e, he, hk'⟩
  rcases mem_getSurroundingBubbles_some.mp he with ⟨heg, -, -⟩
  exact hk' ▸ List.mem_map.mpr ⟨e, heg, rfl⟩

/-! Section: find? helpers -/

theorem find?_split {α : Type} {p : α → Bool} {l : List α} {a : α}
    (h : l.find? p = some a) :
    ∃ l1 l2, l = l1 ++ a :: l2 ∧ p a = true ∧ ∀ x ∈ l1, p x = false := by
  induction l with
  | nil => simp [List.find?] at h
  | cons x rest ih =>
    by_cases hx : p x
    · rw [List.find?_cons_of_pos _ hx] at h
      have hax : a = x := ((Option.some.injEq _ _).mp h).symm
      subst hax
      exact ⟨[], rest, rfl, hx, by simp⟩
    · rw [List.find?_cons_of_neg _ (by simpa using hx)] at h
      rcases ih h with ⟨l1, l2, hsplit, hpa, hl1⟩
      refine ⟨x :: l1, l2, by rw [hsplit, List.cons_append], hpa, ?_⟩
      intro y hy
      rcases List.mem_cons.mp hy with hy1 | hy2
      · rw [hy1]; simpa using hx
      · exact hl1 y hy2

theorem find?_map_comm {α β : Type} (f : α → β) (p : β → Bool) (l : List α) :
    (l.map f).find? p = (l.find? (fun a => p (f a))).map f := by
  induction l with
  | nil => rfl
  | cons x rest ih =>
    simp only [List.map_cons, List.find?]
    cases hx : p (f x)
    · simp only [hx, ih]
    · simp only [hx, Option.map_some']

/-! Section: Evolution relation and the explosion frame lemmas -/

theorem evolRel_refl (g : BubbleGrid) : EvolRel g g := fun _ => Or.inl rfl

theorem evolRel_trans {g1 g2 g3 : BubbleGrid} (h12 : EvolRel g1 g2)
    (h23 : EvolRel g2 g3) : EvolRel g1 g3 := by
  intro k
  rcases h23 k with h3 | ⟨h3, col3, h3'⟩
  · rcases h12 k with h2 | ⟨h2, col2, h2'⟩
    · exact Or.inl (h3.trans h2)
    · exact Or.inr ⟨h3.trans h2, col2, h2'⟩
  · rcases h12 k with h2 | ⟨h2, col2, h2'⟩
    · exact Or.inr ⟨h3, col3, h2 ▸ h3'⟩
    · exact Or.inr ⟨h3, col2, h2'⟩

theorem evolRel_setCell_none {g : BubbleGrid} {k : Coord} {col : Color}
    (h : lookupCell g k = some (some col)) : EvolRel g (setCell g k none) := by
  intro a
  rw [lookupCell_setCell]
  by_cases hak : k = a
  · exact Or.inr ⟨if_pos hak, col, hak ▸ h⟩
  · exact Or.inl (if_neg hak)

theorem evol_backward {g g' : BubbleGrid} (h : EvolRel g g') {b : Coord} {col : Color}
    (hb : lookupCell g' b = some (some col)) : lookupCell g b = some (some col) := by
  rcases h b with h1 | ⟨h2, -⟩
  · rw [← h1, hb]
  · rw [h2] at hb; cases hb

theorem evol_none {g g' : BubbleGrid} (h : EvolRel g g') {b : Coord}
    (hb : lookupCell g b = some none) : lookupCell g' b = some none := by
  rcases h b with h1 | ⟨h2, -⟩
  · rw [h1, hb]
  · exact h2

theorem explodePost_refl (gs : BubbleGrid × Int) : ExplodePost gs gs :=
  ⟨evolRel_refl _, rfl, le_refl _, rfl⟩

theorem explodePost_trans {a b c : BubbleGrid × Int} (hab : ExplodePost a b)
    (hbc : ExplodePost b c) : ExplodePost a c := by
  obtain ⟨e1, k1, c1, s1⟩ := hab
  obtain ⟨e2, k2, c2, s2⟩ := hbc
  exact ⟨evolRel_trans e1 e2, k2.trans k1, c2.trans c1, by omega⟩

theorem explodePost_clearStep {g : BubbleGrid} {k : Coord} {col : Color} (s : Int)
    (h : lookupCell g k = some (some col)) :
    ExplodePost (g, s) (setCell g k none, s + 10) := by
  have hkeys : k ∈ keysOf g := lookupCell_isSome_iff.mp (by rw [h]; rfl)
  have hcc := coloredCount_setCell_none h
  refine ⟨evolRel_setCell_none h, keysOf_setCell none hkeys, ?_, ?_⟩
  · show coloredCount (setCell g k none) ≤ coloredCount g
    omega
  · show s + 10 + 10 * (coloredCount (setCell g k none) : Int) =
      s + 10 * (coloredCount g : Int)
    omega

theorem explodeA_succ (fuel : Nat) (bc : Color) (g : BubbleGrid) (s : Int) (c : Coord) :
    explodeA (fuel + 1) bc g s c =
      (surroundingKeys g c bc).foldl (explodeStep (explodeA fuel bc)) (g, s) := rfl

theorem coloredCount_pos_of_lookup {g : BubbleGrid} {a : Coord} {col : Color}
    (h : lookupCell g a = some (some col)) : 1 ≤ coloredCount g := by
  have hmem : (a, some col) ∈ g := mem_of_lookupCell h
  have : (a, some col) ∈ g.filter (fun e => e.2.isSome) :=
    List.mem_filter.mpr ⟨hmem, rfl⟩
  exact List.length_pos_of_mem this

theorem lookupCell_setCell_self (g : BubbleGrid) (k : Coord) (v : Cell) :
    lookupCell (setCell g k v) k = some v := by
  rw [lookupCell_setCell, if_pos rfl]

theorem lookupCell_setCell_ne {g : BubbleGrid} {k a : Coord} (v : Cell) (h : ¬k = a) :
    lookupCell (setCell g k v) a = lookupCell g a := by
  rw [lookupCell_setCell, if_neg h]

theorem noBcNb_of_evol {g g' : BubbleGrid} {bc : Color} {a : Coord}
    (hev : EvolRel g g') (h : NoBcNb g bc a) : NoBcNb g' bc a :=
  fun b hb hlb => h b hb (evol_backward hev hlb)

theorem explodeFold_post (bc : Color) (fuel : Nat)
    (hA : ∀ g s c, ExplodePost (g, s) (explodeA fuel bc g s c)) :
    ∀ (pending : List Coord) (g : BubbleGrid) (s : Int), KeysSub pending g →
      ExplodePost (g, s) (pending.foldl (explodeStep (explodeA fuel bc)) (g, s)) := by
  intro pending
  induction pending with
  | nil => intro g s _; exact explodePost_refl _
  | cons k rest ih =>
    intro g s hsub
    rw [List.foldl_cons]
    by_cases hk : lookupCell g k = some none
    · rw [show explodeStep (explodeA fuel bc) (g, s) k = (g, s) from by
        simp [explodeStep, hk]]
      exact ih g s (fun x hx => hsub x (List.mem_cons_of_mem _ hx))
    · rw [show explodeStep (explodeA fuel bc) (g, s) k =
          explodeA fuel bc (setCell g k none) (s + 10) k from by
        simp [explodeStep, hk]]
      have hkmem : k ∈ keysOf g := hsub k (List.mem_cons_self _ _)
      have hsome : (lookupCell g k).isSome = true := lookupCell_isSome_iff.mpr hkmem
      obtain ⟨col, hcol⟩ : ∃ col, lookupCell g k = some (some col) := by
        cases hl : lookupCell g k with
        | none => rw [hl] at hsome; cases hsome
        | some cell =>
          cases cell with
          | none => exact absurd hl hk
          | some col => exact ⟨col, rfl⟩
      have h1 : ExplodePost (g, s) (setCell g k none, s + 10) :=
        explodePost_clearStep s hcol
      have h2 := hA (setCell g k none) (s + 10) k
      rcases hgs : explodeA fuel bc (setCell g k none) (s + 10) k with ⟨g2, s2⟩
      rw [hgs] at h2
      have hkeys2 : keysOf g2 = keysOf g := h2.2.1.trans h1.2.1
      have hsub2 : KeysSub rest g2 := by
        intro x hx
        rw [hkeys2]
        exact hsub x (List.mem_cons_of_mem _ hx)
      have h3 := ih g2 s2 hsub2
      exact explodePost_trans h1 (explodePost_trans h2 h3)

theorem explodeA_post (bc : Color) :
    ∀ (fuel : Nat) (g : BubbleGrid) (s : Int) (c : Coord),
      ExplodePost (g, s) (explodeA fuel bc g s c) := by
  intro fuel
  induction fuel with
  | zero => intro g s c; exact explodePost_refl _
  | succ fuel ih =>
    intro g s c
    rw [explodeA_succ]
    exact explodeFold_post bc fuel (fun g' s' c' => ih g' s' c') (surroundingKeys g c bc)
      g s (surroundingKeys_subset g c bc)

theorem explodeFold_evol (bc : Color) (fuel : Nat) (pending : List Coord)
    (g : BubbleGrid) (s : Int) (hsub : KeysSub pending g) :
    EvolRel g (pending.foldl (explodeStep (explodeA fuel bc)) (g, s)).1 :=
  (explodeFold_post bc fuel (fun g' s' c' => explodeA_post bc fuel g' s' c')
    pending g s hsub).1

theorem explodeFold_id_of_noColored (bc : Color) (fuel : Nat) :
    ∀ (pending : List Coord) (g : BubbleGrid) (s : Int), KeysSub pending g →
      coloredCount g = 0 →
      pending.foldl (explodeStep (explodeA fuel bc)) (g, s) = (g, s) := by
  intro pending
  induction pending with
  | nil => intro g s _ _; rfl
  | cons k rest ih =>
    intro g s hsub hcount
    have hkmem : k ∈ keysOf g := hsub k (List.mem_cons_self _ _)
    have hsome : (lookupCell g k).isSome = true := lookupCell_isSome_iff.mpr hkmem
    have hk : lookupCell g k = some none := by
      cases hl : lookupCell g k with
      | none => rw [hl] at hsome; cases hsome
      | some cell =>
        cases cell with
        | none => rfl
        | some col =>
          exact absurd hcount (by have := coloredCount_pos_of_lookup hl; omega)
    rw [List.foldl_cons, show explodeStep (explodeA fuel bc) (g, s) k = (g, s) from by
      simp [explodeStep, hk]]
    exact ih g s (fun x hx => hsub x (List.mem_cons_of_mem _ hx)) hcount

theorem explode_inv (bc : Color) : ∀ fuel : Nat,
    (∀ (g : BubbleGrid) (s : Int) (c : Coord), coloredCount g + 1 ≤ fuel →
      NoBcNb (explodeA fuel bc g s c).1 bc c ∧
      ClearedInv g (explodeA fuel bc g s c).1 bc) ∧
    (∀ (pending : List Coord) (g : BubbleGrid) (s : Int), KeysSub pending g →
      coloredCount g ≤ fuel →
      (∀ m ∈ pending,
        lookupCell g m = some none ∨ lookupCell g m = some (some bc) →
        lookupCell (pending.foldl (explodeStep (explodeA fuel bc)) (g, s)).1 m = some none) ∧
      ClearedInv g (pending.foldl (explodeStep (explodeA fuel bc)) (g, s)).1 bc) := by
  intro fuel
  induction fuel with
  | zero =>
    constructor
    · intro g s c hcount
      exact absurd hcount (by omega)
    · intro pending g s hsub hcount
      have hc0 : coloredCount g = 0 := Nat.le_zero.mp hcount
      rw [explodeFold_id_of_noColored bc 0 pending g s hsub hc0]
      constructor
      · intro m hm harg
        rcases harg with h | h
        · exact h
        · exact absurd hc0 (by have := coloredCount_pos_of_lookup h; omega)
      · intro a ha hfa
        have hfa' : lookupCell g a = some none := hfa
        rw [ha] at hfa'
        cases hfa'
  | succ fuel ih =>
    have hA : ∀ (g : BubbleGrid) (s : Int) (c : Coord), coloredCount g + 1 ≤ fuel + 1 →
        NoBcNb (explodeA (fuel + 1) bc g s c).1 bc c ∧
        ClearedInv g (explodeA (fuel + 1) bc g s c).1 bc := by
      intro g s c hcount
      rw [explodeA_succ]
      have hsub := surroundingKeys_subset g c bc
      have hF := ih.2 (surroundingKeys g c bc) g s hsub (by omega)
      constructor
      · intro b hb hlb
        have hev := explodeFold_evol bc fuel (surroundingKeys g c bc) g s hsub
        have hgb := evol_backward hev hlb
        have hbK := mem_surroundingKeys hb hgb
        have hnone := hF.1 b hbK (Or.inr hgb)
        rw [hnone] at hlb
        cases hlb
      · exact hF.2
    refine ⟨hA, ?_⟩
    intro pending
    induction pending with
    | nil =>
      intro g s hsub hcount
      refine ⟨by simp, ?_⟩
      intro a ha hfa
      have hfa' : lookupCell g a = some none := hfa
      rw [ha] at hfa'
      cases hfa'
    | cons k rest ihrest =>
      intro g s hsub hcount
      have hsubrest : KeysSub rest g := fun x hx => hsub x (List.mem_cons_of_mem _ hx)
      by_cases hk : lookupCell g k = some none
      · have hstep : explodeStep (explodeA (fuel + 1) bc) (g, s) k = (g, s) := by
          simp [explodeStep, hk]
        have hr := ihrest g s hsubrest hcount
        rw [List.foldl_cons, hstep]
        constructor
        · intro m hm harg
          rcases List.mem_cons.mp hm with hmk | hmr
          · subst hmk
            have hev := explodeFold_evol bc (fuel + 1) rest g s hsubrest
            exact evol_none hev hk
          · exact hr.1 m hmr harg
        · exact hr.2
      · have hkmem : k ∈ keysOf g := hsub k (List.mem_cons_self _ _)
        have hsome : (lookupCell g k).isSome = true := lookupCell_isSome_iff.mpr hkmem
        obtain ⟨col, hcol⟩ : ∃ col, lookupCell g k = some (some col) := by
          cases hl : lookupCell g k with
          | none => rw [hl] at hsome; cases hsome
          | some cell =>
            cases cell with
            | none => exact absurd hl hk
            | some col => exact ⟨col, rfl⟩
        have hstep : explodeStep (explodeA (fuel + 1) bc) (g, s) k =
            explodeA (fuel + 1) bc (setCell g k none) (s + 10) k := by
          simp [explodeStep, hk]
        have hccset := coloredCount_setCell_none hcol
        have hA1 := hA (setCell g k none) (s + 10) k (by omega)
        have hpost2 := explodeA_post bc (fuel + 1) (setCell g k none) (s + 10) k
        rcases hgs : explodeA (fuel + 1) bc (setCell g k none) (s + 10) k with ⟨g2, s2⟩
        rw [hgs] at hA1 hpost2
        have hk1 : keysOf g2 = keysOf (setCell g k none) := hpost2.2.1
        have hkeys2 : keysOf g2 = keysOf g := hk1.trans (keysOf_setCell none hkmem)
        have hcle : coloredCount g2 ≤ coloredCount (setCell g k none) := hpost2.2.2.1
        have hcount2 : coloredCount g2 ≤ fuel + 1 := by omega
        have hsub2 : KeysSub rest g2 := fun x hx => by
          rw [hkeys2]; exact hsubrest x hx
        have hr := ihrest g2 s2 hsub2 hcount2
        have hevol2fold := explodeFold_evol bc (fuel + 1) rest g2 s2 hsub2
        rw [List.foldl_cons, hstep, hgs]
        constructor
        · intro m hm harg
          by_cases hmk : m = k
          · subst hmk
            have h1 : lookupCell (setCell g m none) m = some none :=
              lookupCell_setCell_self g m none
            have h2 : lookupCell g2 m = some none := evol_none hpost2.1 h1
            exact evol_none hevol2fold h2
          · have hmr : m ∈ rest := by
              rcases List.mem_cons.mp hm with h | h
              · exact absurd h hmk
              · exact h
            have hg1m : lookupCell (setCell g k none) m = lookupCell g m :=
              lookupCell_setCell_ne none (fun h => hmk h.symm)
            rcases hpost2.1 m with he | ⟨he, -⟩
            · have harg2 : lookupCell g2 m = some none ∨
                  lookupCell g2 m = some (some bc) := by
                rw [he, hg1m]; exact harg
              exact hr.1 m hmr harg2
            · exact evol_none hevol2fold he
        · intro a ha hfa
          by_cases hak : a = k
          · subst hak
            exact noBcNb_of_evol hevol2fold hA1.1
          · have hg1a : lookupCell (setCell g k none) a = lookupCell g a :=
              lookupCell_setCell_ne none (fun h => hak h.symm)
            by_cases h2a : lookupCell g2 a = some none
            · have hcl : NoBcNb g2 bc a := hA1.2 a (by rw [hg1a]; exact ha) h2a
              exact noBcNb_of_evol hevol2fold hcl
            · have hg2a : lookupCell g2 a = some (some bc) := by
                rcases hpost2.1 a with he | ⟨he, -⟩
                · rw [he, hg1a]; exact ha
                · exact absurd he h2a
              exact hr.2 a hg2a hfa

theorem explode_clears_component {g : BubbleGrid} {bc : Color} {c0 : Coord} (s : Int)
    (hplaced : lookupCell g c0 = some (some bc))
    (hnb : ∃ n, isNeighborOf c0 n = true ∧ lookupCell g n = some (some bc)) :
    ∀ k, ReachSame g bc c0 k → lookupCell (explode bc g s c0).1 k = some none := by
  have hinv := (explode_inv bc (coloredCount g + 1)).1 g s c0 (le_refl _)
  have hev : EvolRel g (explodeA (coloredCount g + 1) bc g s c0).1 :=
    (explodeA_post bc (coloredCount g + 1) g s c0).1
  have hNo := hinv.1
  have hCl := hinv.2
  obtain ⟨n, hn, hln⟩ := hnb
  have hn' : lookupCell (explodeA (coloredCount g + 1) bc g s c0).1 n = some none := by
    rcases hev n with he | ⟨he, -⟩
    · exact absurd (by rw [he]; exact hln) (hNo n hn)
    · exact he
  have hnc0 : isNeighborOf n c0 = true := by rw [isNeighborOf_symm]; exact hn
  have hc0ne := (hCl n hln hn') c0 hnc0
  have hc0none : lookupCell (explodeA (coloredCount g + 1) bc g s c0).1 c0 = some none := by
    rcases hev c0 with he | ⟨he, -⟩
    · exact absurd (by rw [he]; exact hplaced) hc0ne
    · exact he
  intro k hreach
  have main : lookupCell (explodeA (coloredCount g + 1) bc g s c0).1 k = some none ∧
      lookupCell g k = some (some bc) := by
    induction hreach with
    | refl => exact ⟨hc0none, hplaced⟩
    | tail hre hnbr hlk ih =>
      have hb' := (hCl _ ih.2 ih.1) _ hnbr
      constructor
      · rcases hev _ with he | ⟨he, -⟩
        · exact absurd (by rw [he]; exact hlk) hb'
        · exact he
      · exact hlk
  exact main.1

theorem getSurroundingBubbles_some_eq_nil {g : BubbleGrid} {c : Coord} {bc : Color}
    (hnd : NodupKeys g)
    (hiso : ∀ n, isNeighborOf c n = true → lookupCell g n ≠ some (some bc)) :
    getSurroundingBubbles g c (some bc) = [] := by
  refine List.eq_nil_iff_forall_not_mem.mpr ?_
  intro e he
  rcases mem_getSurroundingBubbles_some.mp he with ⟨heg, hnbr, he2⟩
  have hl : lookupCell g e.1 = some (some bc) := by
    have := lookupCell_of_mem_nodup hnd (show (e.1, e.2) ∈ g from by
      rw [Prod.mk.eta]; exact heg)
    rw [this, he2]
  exact hiso e.1 hnbr hl

theorem explodeA_noop {g : BubbleGrid} {bc : Color} {c : Coord} (s : Int)
    (hnd : NodupKeys g)
    (hiso : ∀ n, isNeighborOf c n = true → lookupCell g n ≠ some (some bc)) :
    ∀ fuel, explodeA fuel bc g s c = (g, s) := by
  intro fuel
  cases fuel with
  | zero => rfl
  | succ fuel =>
    rw [explodeA_succ, surroundingKeys, getSurroundingBubbles_some_eq_nil hnd hiso]
    rfl

/-- C1 (amended): after `explode(coord)` on a just-placed cell of the
projectile's color, the connected same-colored component containing `coord`
is fully cleared to Empty, provided the component is not the singleton
`{coord}` (equivalently, `coord` has at least one same-colored lattice
neighbour).  The claim as originally stated, without this proviso, is false:
see the counterexample. -/
theorem C1_component_cleared (g : BubbleGrid) (bc : Color) (c0 : Coord) (s : Int)
    (hplaced : lookupCell g c0 = some (some bc))
    (hnb : ∃ n, isNeighborOf c0 n = true ∧ lookupCell g n = some (some bc)) :
    ∀ k, ReachSame g bc c0 k → lookupCell (explode bc g s c0).1 k = some none :=
  explode_clears_component s hplaced hnb

/-- C1 counterexample: a just-placed isolated cell is its own connected
monochrome component, yet `explode` leaves it Colored, refuting the claim
that the component containing the landing cell is always fully cleared. -/
theorem C1_counterexample :
    lookupCell [((0, 2), some Color.orange)] (0, 2) = some (some Color.orange) ∧
    ReachSame [((0, 2), some Color.orange)] Color.orange (0, 2) (0, 2) ∧
    lookupCell (explode Color.orange [((0, 2), some Color.orange)] 0 (0, 2)).1 (0, 2) =
      some (some Color.orange) :=
  ⟨rfl, ReachSame.refl, rfl⟩

/-- C1 witness: a two-cell orange component ((0,2) with its right neighbour
(2,2), i.e. (1,0) in game units) is fully cleared by `explode` at (0,2). -/
theorem C1_witness :
    lookupCell [((0, 2), some Color.orange), ((2, 2), some Color.orange)] (0, 2) =
      some (some Color.orange) ∧
    lookupCell
      (explode Color.orange [((0, 2), some Color.orange), ((2, 2), some Color.orange)]
        0 (0, 2)).1 (2, 2) = some none :=
  ⟨rfl,
    C1_component_cleared [((0, 2), some Color.orange), ((2, 2), some Color.orange)]
      Color.orange (0, 2) 0 rfl ⟨(2, 2), by decide, rfl⟩ (2, 2)
      (ReachSame.tail ReachSame.refl (by decide) rfl)⟩

/-- C10: if the just-placed cell has no lattice neighbour of its color, then
`explode` on it changes nothing: every grid cell keeps its state (the placed
bubble itself stays Colored) and the score is unchanged. -/
theorem C10_isolated_landing_noop (g : BubbleGrid) (bc : Color) (c : Coord) (s : Int)
    (hnd : NodupKeys g)
    (hplaced : lookupCell g c = some (some bc))
    (hiso : ∀ n, isNeighborOf c n = true → lookupCell g n ≠ some (some bc)) :
    explode bc g s c = (g, s) :=
  explodeA_noop s hnd hiso (coloredCount g + 1)

/-- C10 witness: a lone orange cell with an unrelated white cell two rows
away; exploding at the orange cell leaves the state untouched. -/
theorem C10_witness :
    lookupCell [((0, 2), some Color.orange), ((0, 5), some Color.white)] (0, 2) =
      some (some Color.orange) ∧
    explode Color.orange [((0, 2), some Color.orange), ((0, 5), some Color.white)] 0 (0, 2) =
      ([((0, 2), some Color.orange), ((0, 5), some Color.white)], 0) :=
  ⟨rfl,
    C10_isolated_landing_noop [((0, 2), some Color.orange), ((0, 5), some Color.white)]
      Color.orange (0, 2) 0 (by decide) rfl
      (by
        intro n hn hlk
        have hmem := mem_of_lookupCell hlk
        simp only [List.mem_cons, List.not_mem_nil, or_false, Prod.mk.injEq] at hmem
        rcases hmem with ⟨hn2, -⟩ | ⟨hn5, hcol⟩
        · rw [hn2] at hn; exact absurd hn (by decide)
        · cases hcol)⟩

/-! Section: Minimum and landing lemmas -/

theorem foldl_min_le_init (xs : List Nat) (a : Nat) : xs.foldl min a ≤ a := by
  induction xs generalizing a with
  | nil => exact le_refl a
  | cons x rest ih => exact le_trans (ih (min a x)) (min_le_left a x)

theorem foldl_min_le_mem {xs : List Nat} {x : Nat} :
    ∀ (a : Nat), x ∈ xs → xs.foldl min a ≤ x := by
  induction xs with
  | nil => intro a h; cases h
  | cons y rest ih =>
    intro a h
    rcases List.mem_cons.mp h with hxy | hxr
    · subst hxy
      exact le_trans (foldl_min_le_init rest (min a x)) (min_le_right a x)
    · exact ih (min a y) hxr

theorem foldl_min_mem (xs : List Nat) (a : Nat) :
    xs.foldl min a = a ∨ xs.foldl min a ∈ xs := by
  induction xs generalizing a with
  | nil => exact Or.inl rfl
  | cons y rest ih =>
    rcases ih (min a y) with h | h
    · rcases min_choice a y with hm | hm
      · exact Or.inl (by rw [List.foldl_cons, h, hm])
      · exact Or.inr (by rw [List.foldl_cons, h, hm]; exact List.mem_cons_self _ _)
    · exact Or.inr (List.mem_cons_of_mem _ (by rw [List.foldl_cons]; exact h))

theorem listMin_spec {xs : List Nat} {m : Nat} (h : listMin xs = some m) :
    m ∈ xs ∧ ∀ x ∈ xs, m ≤ x := by
  cases xs with
  | nil => cases h
  | cons x rest =>
    have hm : rest.foldl min x = m := by
      have : some (rest.foldl min x) = some m := h
      injection this
    constructor
    · rcases foldl_min_mem rest x with h1 | h1
      · rw [← hm, h1]; exact List.mem_cons_self _ _
      · rw [← hm]; exact List.mem_cons_of_mem _ h1
    · intro y hy
      rcases List.mem_cons.mp hy with hxy | hxr
      · rw [← hm, hxy]; exact foldl_min_le_init rest x
      · rw [← hm]; exact foldl_min_le_mem x hxr

theorem find?_distances (w : Coord) (m : Nat) (cands : BubbleGrid) :
    (cands.map (fun e => (e.1, dSq e.1 w))).find? (fun d => decide (d.2 = m)) =
      (cands.find? (fun e => decide (dSq e.1 w = m))).map
        (fun e => (e.1, dSq e.1 w)) := by
  induction cands with
  | nil => rfl
  | cons e rest ih =>
    simp only [List.map_cons, List.find?]
    cases hx : decide (dSq e.1 w = m)
    · simpa [hx] using ih
    · simp [hx]

theorem landBullet_spec (g : BubbleGrid) (bc : Color) (w : Coord)
    (hne : getSurroundingBubbles g w none ≠ []) :
    ∃ c l1 l2,
      landBullet g bc w = some (setCell g c (some bc), c) ∧
      getSurroundingBubbles g w none = l1 ++ (c, (none : Cell)) :: l2 ∧
      (∀ e ∈ getSurroundingBubbles g w none, dSq c w ≤ dSq e.1 w) ∧
      (∀ e ∈ l1, dSq c w < dSq e.1 w) := by
  obtain ⟨m, hmin⟩ : ∃ m, listMin (((getSurroundingBubbles g w none).map
      (fun e => (e.1, dSq e.1 w))).map (fun e => e.2)) = some m := by
    cases hc : ((getSurroundingBubbles g w none).map
        (fun e => (e.1, dSq e.1 w))).map (fun e => e.2) with
    | nil =>
      rw [List.map_eq_nil_iff, List.map_eq_nil_iff] at hc
      exact absurd hc hne
    | cons x xs => exact ⟨xs.foldl min x, rfl⟩
  have hmm := listMin_spec hmin
  obtain ⟨c0, hc0mem, hc0m⟩ : ∃ e ∈ getSurroundingBubbles g w none, dSq e.1 w = m := by
    rcases List.mem_map.mp hmm.1 with ⟨d, hd, hd2⟩
    rcases List.mem_map.mp hd with ⟨e, he, hef⟩
    exact ⟨e, he, by rw [← hef] at hd2; exact hd2⟩
  have hfindSome : ∃ e, (getSurroundingBubbles g w none).find?
      (fun e => decide (dSq e.1 w = m)) = some e := by
    cases hfc : (getSurroundingBubbles g w none).find?
        (fun e => decide (dSq e.1 w = m)) with
    | none =>
      have := List.find?_eq_none.mp hfc c0 hc0mem
      simp [hc0m] at this
    | some e => exact ⟨e, rfl⟩
  obtain ⟨e, hfc⟩ := hfindSome
  have hpe : dSq e.1 w = m := by
    have := List.find?_some hfc
    simpa using this
  obtain ⟨l1, l2, hsplit, -, hl1⟩ := find?_split hfc
  have he2 : e.2 = none := by
    have : e ∈ getSurroundingBubbles g w none := List.mem_of_find?_eq_some hfc
    exact (mem_getSurroundingBubbles_none.mp this).2.2
  have hdst : ((getSurroundingBubbles g w none).map
      (fun e => (e.1, dSq e.1 w))).find? (fun d => decide (d.2 = m)) =
      some (e.1, dSq e.1 w) := by
    rw [find?_distances, hfc]
    rfl
  refine ⟨e.1, l1, l2, ?_, ?_, ?_, ?_⟩
  · simp only [landBullet, hmin, hdst]
  · rw [hsplit]
    have : (e.1, (none : Cell)) = e := by
      rw [← he2]
    rw [this]
  · intro d hd
    rw [hpe]
    exact hmm.2 (dSq d.1 w)
      (List.mem_map.mpr ⟨(d.1, dSq d.1 w), List.mem_map.mpr ⟨d, hd, rfl⟩, rfl⟩)
  · intro d hd
    have hne' := hl1 d hd
    simp only [decide_eq_false_iff_not] at hne'
    have hle : m ≤ dSq d.1 w := hmm.2 (dSq d.1 w)
      (List.mem_map.mpr ⟨(d.1, dSq d.1 w),
        List.mem_map.mpr ⟨d, by rw [hsplit]; exact List.mem_append_left _ hd, rfl⟩, rfl⟩)
    rw [hpe]
    omega

theorem landBullet_none_of_empty {g : BubbleGrid} (bc : Color) {w : Coord}
    (hc : getSurroundingBubbles g w none = []) : landBullet g bc w = none := by
  simp [landBullet, hc, listMin]

theorem landBullet_keys {g : BubbleGrid} {bc : Color} {w : Coord} {g' : BubbleGrid}
    {c : Coord} (h : landBullet g bc w = some (g', c)) :
    g' = setCell g c (some bc) ∧ (c, (none : Cell)) ∈ g ∧ keysOf g' = keysOf g := by
  by_cases hc : getSurroundingBubbles g w none = []
  · rw [landBullet_none_of_empty bc hc] at h
    cases h
  · obtain ⟨c0, l1, l2, heq, hsplit, -, -⟩ := landBullet_spec g bc w hc
    rw [heq] at h
    simp only [Option.some.injEq, Prod.mk.injEq] at h
    obtain ⟨hg', hc0⟩ := h
    subst hc0
    have hcmem : (c0, (none : Cell)) ∈ getSurroundingBubbles g w none := by
      rw [hsplit]
      exact List.mem_append_right _ (List.mem_cons_self _ _)
    have hcg : (c0, (none : Cell)) ∈ g := (mem_getSurroundingBubbles_none.mp hcmem).1
    have hck : c0 ∈ keysOf g := List.mem_map.mpr ⟨(c0, none), hcg, rfl⟩
    exact ⟨hg'.symm, hcg, by rw [← hg']; exact keysOf_setCell (some bc) hck⟩

/-- C2: when the wanted landing position has at least one Empty lattice
neighbour, `landBullet` selects exactly an Empty neighbour with minimum
Euclidean distance to the wanted position (first in grid enumeration order
among ties), recolors that cell with the projectile's color, and never
selects an already-Colored cell.  (`dSq` is the squared distance scaled by 4,
an order-faithful encoding of the compared floating-point distances.) -/
theorem C2_landing_selects_nearest_empty (g : BubbleGrid) (bc : Color) (w : Coord)
    (hnd : NodupKeys g)
    (hne : getSurroundingBubbles g w none ≠ []) :
    ∃ c l1 l2,
      landBullet g bc w = some (setCell g c (some bc), c) ∧
      lookupCell g c = some none ∧
      isNeighborOf w c = true ∧
      getSurroundingBubbles g w none = l1 ++ (c, (none : Cell)) :: l2 ∧
      (∀ e ∈ getSurroundingBubbles g w none, dSq c w ≤ dSq e.1 w) ∧
      (∀ e ∈ l1, dSq c w < dSq e.1 w) := by
  obtain ⟨c, l1, l2, h1, h2, h3, h4⟩ := landBullet_spec g bc w hne
  have hcmem : (c, (none : Cell)) ∈ getSurroundingBubbles g w none := by
    rw [h2]
    exact List.mem_append_right _ (List.mem_cons_self _ _)
  obtain ⟨hg, hnb, -⟩ := mem_getSurroundingBubbles_none.mp hcmem
  exact ⟨c, l1, l2, h1, lookupCell_of_mem_nodup hnd hg, hnb, h2, h3, h4⟩

/-- C2 witness: wanted position (0,2) (game coordinates (0,2)) has the Empty
neighbours (0.5,1) — enumerated first — and (1,2); the landing picks (1,2),
the strictly nearer one. -/
theorem C2_witness :
    NodupKeys [((0, 2), some Color.white), ((1, 1), (none : Cell)), ((2, 2), (none : Cell))] ∧
    getSurroundingBubbles
      [((0, 2), some Color.white), ((1, 1), (none : Cell)), ((2, 2), (none : Cell))]
      (0, 2) none ≠ [] ∧
    ∃ c l1 l2,
      landBullet [((0, 2), some Color.white), ((1, 1), (none : Cell)), ((2, 2), (none : Cell))]
        Color.orange (0, 2) =
        some (setCell [((0, 2), some Color.white), ((1, 1), (none : Cell)),
          ((2, 2), (none : Cell))] c (some Color.orange), c) ∧
      lookupCell [((0, 2), some Color.white), ((1, 1), (none : Cell)), ((2, 2), (none : Cell))]
        c = some none ∧
      isNeighborOf (0, 2) c = true ∧
      getSurroundingBubbles
        [((0, 2), some Color.white), ((1, 1), (none : Cell)), ((2, 2), (none : Cell))]
        (0, 2) none = l1 ++ (c, (none : Cell)) :: l2 ∧
      (∀ e ∈ getSurroundingBubbles
        [((0, 2), some Color.white), ((1, 1), (none : Cell)), ((2, 2), (none : Cell))]
        (0, 2) none, dSq c (0, 2) ≤ dSq e.1 (0, 2)) ∧
      (∀ e ∈ l1, dSq c (0, 2) < dSq e.1 (0, 2)) :=
  ⟨by decide, by decide,
    C2_landing_selects_nearest_empty
      [((0, 2), some Color.white), ((1, 1), (none : Cell)), ((2, 2), (none : Cell))]
      Color.orange (0, 2) (by decide) (by decide)⟩

/-- C5: the key set of the grid is invariant: explosions (at any fuel) only
set already-present keys to Empty, a successful landing only recolors an
already-present Empty key, and a whole shot never adds or removes a key. -/
theorem C5_key_set_invariant :
    (∀ (fuel : Nat) (bc : Color) (g : BubbleGrid) (s : Int) (c : Coord),
      keysOf (explodeA fuel bc g s c).1 = keysOf g) ∧
    (∀ (g : BubbleGrid) (bc : Color) (w : Coord) (g' : BubbleGrid) (c : Coord),
      NodupKeys g → landBullet g bc w = some (g', c) →
      keysOf g' = keysOf g ∧ lookupCell g c = some none) ∧
    (∀ (st : GameState) (bc : Color) (d : QPos) (fuel : Nat),
      keysOf (fireBullet st bc d fuel).1.bubbles = keysOf st.bubbles) := by
  refine ⟨?_, ?_, ?_⟩
  · intro fuel bc g s c
    exact (explodeA_post bc fuel g s c).2.1
  · intro g bc w g' c hnd h
    obtain ⟨-, hcg, hkeys⟩ := landBullet_keys h
    exact ⟨hkeys, lookupCell_of_mem_nodup hnd hcg⟩
  · intro st bc d fuel
    cases hfl : flightLoop st.bubbles d fuel (0, 0) 0 with
    | fuelOut => simp only [fireBullet, hfl]
    | oob => simp only [fireBullet, hfl]
    | landed w pos =>
      cases hlb : landBullet st.bubbles bc w with
      | none => simp only [fireBullet, hfl, hlb]
      | some r =>
        obtain ⟨g1, c⟩ := r
        obtain ⟨-, -, hkeys⟩ := landBullet_keys hlb
        simp only [fireBullet, hfl, hlb]
        exact ((explodeA_post bc (coloredCount g1 + 1) g1 st.score c).2.1).trans hkeys

/-- C5 witness: one landing on the two-key grid keeps the key list. -/
theorem C5_witness :
    NodupKeys [((0, 2), some Color.white), ((2, 2), (none : Cell))] ∧
    landBullet [((0, 2), some Color.white), ((2, 2), (none : Cell))] Color.blue (0, 2) =
      some ([((0, 2), some Color.white), ((2, 2), some Color.blue)], (2, 2)) ∧
    keysOf [((0, 2), some Color.white), ((2, 2), some Color.blue)] =
      keysOf [((0, 2), some Color.white), ((2, 2), (none : Cell))] ∧
    lookupCell [((0, 2), some Color.white), ((2, 2), (none : Cell))] (2, 2) = some none :=
  ⟨by decide, by decide,
    C5_key_set_invariant.2.1 [((0, 2), some Color.white), ((2, 2), (none : Cell))]
      Color.blue (0, 2) [((0, 2), some Color.white), ((2, 2), some Color.blue)] (2, 2)
      (by decide) (by decide)⟩

/-- C4: the win signal of `newRound` fires exactly when every cell of the
grid is Empty; any grid still holding a Colored cell (in particular exactly
one) does not trigger it. -/
theorem C4_win_iff_all_empty (g : BubbleGrid) :
    (checkWin g = true ↔ ∀ k v, (k, v) ∈ g → v = none) ∧
    (∀ k col, (k, some col) ∈ g → checkWin g = false) := by
  have hmain : checkWin g = true ↔ ∀ k v, (k, v) ∈ g → v = none := by
    rw [checkWin, List.all_eq_true]
    constructor
    · intro h k v hm
      have := h (k, v) hm
      simpa using this
    · intro h e he
      have := h e.1 e.2 (by rw [Prod.mk.eta]; exact he)
      simpa using this
  refine ⟨hmain, ?_⟩
  intro k col hm
  by_contra hw
  rw [Bool.not_eq_false] at hw
  have := hmain.mp hw k (some col) hm
  cases this

/-- C4 witness: a grid with exactly one remaining Colored cell does not win. -/
theorem C4_witness :
    ((0, 2), some Color.orange) ∈
      ([((0, 2), some Color.orange), ((2, 2), (none : Cell))] : BubbleGrid) ∧
    checkWin [((0, 2), some Color.orange), ((2, 2), (none : Cell))] = false :=
  ⟨by decide,
    (C4_win_iff_all_empty [((0, 2), some Color.orange), ((2, 2), (none : Cell))]).2
      (0, 2) Color.orange (by decide)⟩

/-- C3: the score changes in exactly two ways.  An explosion awards 10 points
per cleared cell (the score delta equals 10 times the drop in the
Colored-cell count, at every fuel); an out-of-bounds shot costs exactly 10
points and leaves the grid alone; a landed shot changes the score only by
the explosion's awards; a crashed or fuel-exhausted shot changes nothing. -/
theorem C3_score_accounting (bc : Color) :
    (∀ (fuel : Nat) (g : BubbleGrid) (s : Int) (c : Coord),
      (explodeA fuel bc g s c).2 =
        s + 10 * ((coloredCount g : Int) - (coloredCount (explodeA fuel bc g s c).1 : Int))) ∧
    (∀ (st : GameState) (d : QPos) (fuel : Nat) (st' : GameState) (won : Bool),
      fireBullet st bc d fuel = (st', .oobExit won) →
      st'.score = st.score - 10 ∧ st'.bubbles = st.bubbles) ∧
    (∀ (st : GameState) (d : QPos) (fuel : Nat) (st' : GameState) (c : Coord) (won : Bool),
      fireBullet st bc d fuel = (st', .landedAt c won) →
      ∃ (w : Coord) (pos : QPos) (g1 : BubbleGrid),
        flightLoop st.bubbles d fuel (0, 0) 0 = .landed w pos ∧
        landBullet st.bubbles bc w = some (g1, c) ∧
        st'.bubbles = (explode bc g1 st.score c).1 ∧
        st'.score = st.score +
          10 * ((coloredCount g1 : Int) - (coloredCount st'.bubbles : Int))) ∧
    (∀ (st : GameState) (d : QPos) (fuel : Nat) (st' : GameState),
      fireBullet st bc d fuel = (st', .crash) ∨ fireBullet st bc d fuel = (st', .fuelOut) →
      st' = st) := by
  refine ⟨?_, ?_, ?_, ?_⟩
  · intro fuel g s c
    have h : (explodeA fuel bc g s c).2 +
        10 * (coloredCount (explodeA fuel bc g s c).1 : Int) =
        s + 10 * (coloredCount g : Int) := (explodeA_post bc fuel g s c).2.2.2
    omega
  · intro st d fuel st' won h
    cases hfl : flightLoop st.bubbles d fuel (0, 0) 0 with
    | fuelOut =>
      simp only [fireBullet, hfl] at h
      simp at h
    | oob =>
      simp only [fireBullet, hfl, Prod.mk.injEq] at h
      obtain ⟨h1, -⟩ := h
      rw [← h1]
      exact ⟨rfl, rfl⟩
    | landed w pos =>
      cases hlb : landBullet st.bubbles bc w with
      | none =>
        simp only [fireBullet, hfl, hlb] at h
        simp at h
      | some r =>
        obtain ⟨g1, c0⟩ := r
        simp only [fireBullet, hfl, hlb] at h
        simp at h
  · intro st d fuel st' c won h
    cases hfl : flightLoop st.bubbles d fuel (0, 0) 0 with
    | fuelOut =>
      simp only [fireBullet, hfl] at h
      simp at h
    | oob =>
      simp only [fireBullet, hfl] at h
      simp at h
    | landed w pos =>
      cases hlb : landBullet st.bubbles bc w with
      | none =>
        simp only [fireBullet, hfl, hlb] at h
        simp at h
      | some r =>
        obtain ⟨g1, c0⟩ := r
        simp only [fireBullet, hfl, hlb, Prod.mk.injEq, Outcome.landedAt.injEq] at h
        obtain ⟨hst, hc0, -⟩ := h
        subst hc0
        refine ⟨w, pos, g1, rfl, hlb, ?_, ?_⟩
        · rw [← hst]
        · have hsc : (explodeA (coloredCount g1 + 1) bc g1 st.score c0).2 +
              10 * (coloredCount (explodeA (coloredCount g1 + 1) bc g1 st.score c0).1 : Int) =
              st.score + 10 * (coloredCount g1 : Int) :=
            (explodeA_post bc (coloredCount g1 + 1) g1 st.score c0).2.2.2
          rw [← hst]
          show (explodeA (coloredCount g1 + 1) bc g1 st.score c0).2 = st.score +
            10 * ((coloredCount g1 : Int) -
              (coloredCount (explodeA (coloredCount g1 + 1) bc g1 st.score c0).1 : Int))
          omega
  · intro st d fuel st' h
    rcases h with h | h
    · cases hfl : flightLoop st.bubbles d fuel (0, 0) 0 with
      | fuelOut =>
        simp only [fireBullet, hfl] at h
        simp at h
      | oob =>
        simp only [fireBullet, hfl] at h
        simp at h
      | landed w pos =>
        cases hlb : landBullet st.bubbles bc w with
        | none =>
          simp only [fireBullet, hfl, hlb, Prod.mk.injEq] at h
          exact h.1.symm
        | some r =>
          obtain ⟨g1, c0⟩ := r
          simp only [fireBullet, hfl, hlb] at h
          simp at h
    · cases hfl : flightLoop st.bubbles d fuel (0, 0) 0 with
      | fuelOut =>
        simp only [fireBullet, hfl, Prod.mk.injEq] at h
        exact h.1.symm
      | oob =>
        simp only [fireBullet, hfl] at h
        simp at h
      | landed w pos =>
        cases hlb : landBullet st.bubbles bc w with
        | none =>
          simp only [fireBullet, hfl, hlb] at h
          simp at h
        | some r =>
          obtain ⟨g1, c0⟩ := r
          simp only [fireBullet, hfl, hlb] at h
          simp at h

/-- C3 witness: a zero-fuel shot is reported `fuelOut` and changes nothing,
exercising the frame conjunct of the accounting theorem at a concrete state. -/
theorem C3_witness :
    fireBullet ⟨[((0, 2), some Color.orange)], 5⟩ Color.orange (0, 1) 0 =
      (⟨[((0, 2), some Color.orange)], 5⟩, .fuelOut) ∧
    (⟨[((0, 2), some Color.orange)], 5⟩ : GameState) =
      ⟨[((0, 2), some Color.orange)], 5⟩ :=
  ⟨rfl,
    (C3_score_accounting Color.orange).2.2.2 ⟨[((0, 2), some Color.orange)], 5⟩ (0, 1) 0
      ⟨[((0, 2), some Color.orange)], 5⟩ (Or.inr rfl)⟩

/-- C6: the neighbour collection of any coordinate has at most 6 entries
(given the pairwise-distinct keys of a JS object), each located exactly at
one of the six lattice offsets from the centre and each an entry of the
grid itself. -/
theorem C6_neighbors_bounded (g : BubbleGrid) (c : Coord) (hnd : NodupKeys g) :
    (surrounding g c).length ≤ 6 ∧
    ∀ e ∈ surrounding g c, (e.1.1 - c.1, e.1.2 - c.2) ∈ neighborOffsets ∧ e ∈ g := by
  constructor
  · have hsl : (surrounding g c).Sublist g := List.filter_sublist g
    have hnds : (keysOf (surrounding g c)).Nodup := by
      have h0 : (List.map (fun e : Coord × Cell => e.1) (surrounding g c)).Sublist
          (List.map (fun e : Coord × Cell => e.1) g) := List.Sublist.map _ hsl
      have hnd0 : (List.map (fun e : Coord × Cell => e.1) g).Nodup := hnd
      exact List.Nodup.sublist h0 hnd0
    have hsub : ∀ k ∈ keysOf (surrounding g c),
        k ∈ neighborOffsets.map (fun o => (c.1 + o.1, c.2 + o.2)) := by
      intro k hk
      rcases List.mem_map.mp hk with ⟨e, he, hk'⟩
      obtain ⟨-, hnb⟩ := mem_surrounding.mp he
      obtain ⟨kx, ky⟩ := k
      simp only [isNeighborOf, decide_eq_true_eq] at hnb
      rw [hk'] at hnb
      simp only [neighborOffsets, List.map_cons, List.map_nil, List.mem_cons,
        List.not_mem_nil, or_false, Prod.mk.injEq]
      omega
    have h1 : (surrounding g c).length = (keysOf (surrounding g c)).length :=
      (List.length_map _ _).symm
    have h2 : (keysOf (surrounding g c)).length = (keysOf (surrounding g c)).toFinset.card :=
      (List.toFinset_card_of_nodup hnds).symm
    have h3 : (keysOf (surrounding g c)).toFinset ⊆
        (neighborOffsets.map (fun o => (c.1 + o.1, c.2 + o.2))).toFinset := by
      intro x hx
      rw [List.mem_toFinset] at hx ⊢
      exact hsub x hx
    have h4 := Finset.card_le_card h3
    have h5 := List.toFinset_card_le (neighborOffsets.map (fun o => (c.1 + o.1, c.2 + o.2)))
    have h6 : (neighborOffsets.map (fun o => (c.1 + o.1, c.2 + o.2))).length = 6 := by
      simp [neighborOffsets]
    omega
  · intro e he
    obtain ⟨heg, hnb⟩ := mem_surrounding.mp he
    refine ⟨?_, heg⟩
    simp only [isNeighborOf, decide_eq_true_eq] at hnb
    simp only [neighborOffsets, List.mem_cons, List.not_mem_nil, or_false, Prod.mk.injEq]
    omega

/-- C6 witness: the neighbour collection of (0,2) in a three-key grid. -/
theorem C6_witness :
    NodupKeys [((0, 2), some Color.white), ((1, 1), (none : Cell)), ((2, 2), (none : Cell))] ∧
    (surrounding [((0, 2), some Color.white), ((1, 1), (none : Cell)), ((2, 2), (none : Cell))]
        (0, 2)).length ≤ 6 ∧
    ∀ e ∈ surrounding
        [((0, 2), some Color.white), ((1, 1), (none : Cell)), ((2, 2), (none : Cell))] (0, 2),
      (e.1.1 - 0, e.1.2 - 2) ∈ neighborOffsets ∧
        e ∈ [((0, 2), some Color.white), ((1, 1), (none : Cell)), ((2, 2), (none : Cell))] :=
  ⟨by decide,
    C6_neighbors_bounded
      [((0, 2), some Color.white), ((1, 1), (none : Cell)), ((2, 2), (none : Cell))]
      (0, 2) (by decide)⟩

/-! Section: Grid creation lemmas -/

theorem gridCoord_inj {w h r1 c1 r2 c2 : Nat}
    (heq : gridCoord w h r1 c1 = gridCoord w h r2 c2) : r1 = r2 ∧ c1 = c2 := by
  simp only [gridCoord, Prod.mk.injEq] at heq
  obtain ⟨hx, hy⟩ := heq
  have hr : r1 = r2 := by omega
  subst hr
  refine ⟨rfl, ?_⟩
  by_cases ho : r1 % 2 ≠ 0
  · rw [if_pos ho] at hx
    omega
  · rw [if_neg ho] at hx
    omega

theorem keysOf_create (w h : Nat) (pick : Nat → Nat → Color) :
    keysOf (createBubbleGrid w h pick) =
      (List.range h).flatMap (fun row =>
        (List.range w).map (fun col => gridCoord w h row col)) := by
  rw [createBubbleGrid, keysOf, List.map_flatMap]
  congr 1
  funext row
  rw [List.map_map]
  rfl

theorem nodupKeys_create (w h : Nat) (pick : Nat → Nat → Color) :
    NodupKeys (createBubbleGrid w h pick) := by
  rw [NodupKeys, keysOf_create, List.nodup_flatMap]
  constructor
  · intro r _
    refine List.Nodup.map ?_ (List.nodup_range w)
    intro c1 c2 hcc
    exact (gridCoord_inj hcc).2
  · refine (List.nodup_range h).imp ?_
    intro r1 r2 hne x hx1 hx2
    rcases List.mem_map.mp hx1 with ⟨c1, -, h1⟩
    rcases List.mem_map.mp hx2 with ⟨c2, -, h2⟩
    exact hne (gridCoord_inj (h1.trans h2.symm)).1

theorem create_length (w h : Nat) (pick : Nat → Nat → Color) :
    (createBubbleGrid w h pick).length = h * w := by
  rw [createBubbleGrid, List.length_flatMap]
  have hmap : ∀ n, ((List.range n).map
      (List.length ∘ fun row => (List.range w).map (fun col =>
        (gridCoord w h row col, if row < 5 then some (pick row col) else none)))).sum
      = n * w := by
    intro n
    induction n with
    | zero => simp
    | succ n ih =>
      rw [List.range_succ, List.map_append, List.sum_append, ih]
      simp only [List.map_cons, List.map_nil, List.sum_cons, List.sum_nil, Function.comp,
        List.length_map, List.length_range]
      ring
  exact hmap h

/-- C9: grid creation yields a dense mapping with one entry per
(row, column) pair, row-major, at coordinate
x = col + (row odd ? 0.5 : 0) − width/2, y = −row + height (here in
half-units), Colored with the palette sample exactly for rows below 5. -/
theorem C9_create_grid_layout (w h : Nat) (pick : Nat → Nat → Color) :
    (createBubbleGrid w h pick).length = h * w ∧
    (∀ row col, row < h → col < w →
      lookupCell (createBubbleGrid w h pick) (gridCoord w h row col) =
        some (if row < 5 then some (pick row col) else none)) ∧
    (∀ e ∈ createBubbleGrid w h pick,
      ∃ row col, row < h ∧ col < w ∧ e.1 = gridCoord w h row col) := by
  refine ⟨create_length w h pick, ?_, ?_⟩
  · intro row col hr hc
    have hmem : (gridCoord w h row col,
        if row < 5 then some (pick row col) else none) ∈ createBubbleGrid w h pick := by
      rw [createBubbleGrid]
      exact List.mem_flatMap.mpr ⟨row, List.mem_range.mpr hr,
        List.mem_map.mpr ⟨col, List.mem_range.mpr hc, rfl⟩⟩
    exact lookupCell_of_mem_nodup (nodupKeys_create w h pick) hmem
  · intro e he
    rw [createBubbleGrid] at he
    rcases List.mem_flatMap.mp he with ⟨row, hrow, hin⟩
    rcases List.mem_map.mp hin with ⟨col, hcol, hec⟩
    exact ⟨row, col, List.mem_range.mp hrow, List.mem_range.mp hcol, by rw [← hec]⟩

/-- C9 witness: the seeded 2×6 grid holds the sampled color at (row 0, col 0)
and an Empty cell at (row 5, col 1). -/
theorem C9_witness :
    (0 < 6 ∧ 0 < 2 ∧
      lookupCell (createBubbleGrid 2 6 (fun _ _ => Color.orange)) (gridCoord 2 6 0 0) =
        some (if 0 < 5 then some Color.orange else none)) ∧
    (5 < 6 ∧ 1 < 2 ∧
      lookupCell (createBubbleGrid 2 6 (fun _ _ => Color.orange)) (gridCoord 2 6 5 1) =
        some (if 5 < 5 then some Color.orange else none)) :=
  ⟨⟨by decide, by decide,
      (C9_create_grid_layout 2 6 (fun _ _ => Color.orange)).2.1 0 0 (by decide) (by decide)⟩,
    ⟨by decide, by decide,
      (C9_create_grid_layout 2 6 (fun _ _ => Color.orange)).2.1 5 1 (by decide) (by decide)⟩⟩

/-- C7: the collision test declares a landing iff some Colored cell lies
strictly within 1.12 lattice units of the current bullet position (squared
comparison over exact rationals); the recorded wanted landing position is
the first such cell in grid enumeration order; and the test is evaluated
before each positional update: a colliding flight step returns immediately
with the bullet position unmoved. -/
theorem C7_collision_characterization (g : BubbleGrid) (pos : QPos) :
    ((bulletIsAboutToCollide g pos).isSome = true ↔
      ∃ e ∈ g, e.2.isSome = true ∧ qDistSq (coordToQ e.1) pos < collideThresholdSq) ∧
    (∀ w, bulletIsAboutToCollide g pos = some w →
      ∃ e l1 l2, g = l1 ++ e :: l2 ∧ e.1 = w ∧ e.2.isSome = true ∧
        qDistSq (coordToQ e.1) pos < collideThresholdSq ∧
        ∀ e' ∈ l1, ¬(e'.2.isSome = true ∧
          qDistSq (coordToQ e'.1) pos < collideThresholdSq)) ∧
    (∀ (d : QPos) (fuel : Nat) (t : ℚ) (w : Coord),
      bulletIsAboutToCollide g pos = some w →
      flightLoop g d (fuel + 1) pos t = .landed w pos) := by
  refine ⟨?_, ?_, ?_⟩
  · rw [bulletIsAboutToCollide, Option.isSome_map', List.find?_isSome]
    constructor
    · rintro ⟨e, he, hp⟩
      simp only [Bool.and_eq_true, decide_eq_true_eq] at hp
      exact ⟨e, he, hp⟩
    · rintro ⟨e, he, h1, h2⟩
      exact ⟨e, he, by simp [h1, h2]⟩
  · intro w h
    rw [bulletIsAboutToCollide] at h
    rcases Option.map_eq_some'.mp h with ⟨e, hfe, he1⟩
    obtain ⟨l1, l2, hsplit, hpe, hl1⟩ := find?_split hfe
    simp only [Bool.and_eq_true, decide_eq_true_eq] at hpe
    refine ⟨e, l1, l2, hsplit, he1, hpe.1, hpe.2, ?_⟩
    rintro e' he' ⟨h1, h2⟩
    have hfalse := hl1 e' he'
    have htrue : (e'.2.isSome &&
        decide (qDistSq (coordToQ e'.1) pos < collideThresholdSq)) = true := by
      simp [h1, h2]
    rw [hfalse] at htrue
    cases htrue
  · intro d fuel t w h
    simp only [flightLoop, h]

theorem collide_at_touching :
    bulletIsAboutToCollide [((0, 2), some Color.orange)] ((0 : ℚ), (2 : ℚ)) =
      some (0, 2) := by
  have hq : qDistSq (coordToQ (0, 2)) ((0 : ℚ), (2 : ℚ)) < collideThresholdSq := by
    simp only [qDistSq, coordToQ, collideThresholdSq]
    norm_num
  rw [bulletIsAboutToCollide, List.find?_cons_of_pos _ (by
    simp only [Option.isSome_some, Bool.true_and, decide_eq_true_eq]
    exact hq)]
  rfl

/-- C7 witness: the bullet exactly on top of the lone orange bubble at (0,2)
collides with it, and a flight step from there lands at once on that wanted
position with the position unchanged. -/
theorem C7_witness :
    bulletIsAboutToCollide [((0, 2), some Color.orange)] ((0 : ℚ), (2 : ℚ)) =
      some (0, 2) ∧
    flightLoop [((0, 2), some Color.orange)] (0, 1) 10 ((0 : ℚ), (2 : ℚ)) 0 =
      .landed (0, 2) ((0 : ℚ), (2 : ℚ)) :=
  ⟨collide_at_touching,
    (C7_collision_characterization [((0, 2), some Color.orange)]
      ((0 : ℚ), (2 : ℚ))).2.2 (0, 1) 9 0 (0, 2) collide_at_touching⟩

/-! Section: Flight termination on a grid with no Colored cells -/

theorem noCollide_of_empty {g : BubbleGrid} (hg : ∀ e ∈ g, e.2 = none) (pos : QPos) :
    bulletIsAboutToCollide g pos = none := by
  rw [bulletIsAboutToCollide, Option.map_eq_none', List.find?_eq_none]
  intro e he
  rw [hg e he]
  simp

theorem bulletOOB_of_far {dx dy s : ℚ} (hd : dx * dx + dy * dy = 1)
    (hs : 1341 < s * s) : bulletOutOfBounds (dx * s, dy * s) = true := by
  simp only [bulletOutOfBounds, playgroundWidth, playgroundHeight, decide_eq_true_eq]
  by_contra hcon
  push_neg at hcon
  obtain ⟨h1, h2, h3, h4⟩ := hcon
  have h1' : -(21 : ℚ) ≤ dx * s := by linarith [h1]
  have h2' : dx * s ≤ 21 := by linarith [h2]
  have hx2 : (dx * s) * (dx * s) ≤ 441 := by nlinarith
  have hy2 : (dy * s) * (dy * s) ≤ 900 := by nlinarith
  have hkey : (dx * s) * (dx * s) + (dy * s) * (dy * s) = s * s := by
    have hr : (dx * s) * (dx * s) + (dy * s) * (dy * s) =
        (dx * dx + dy * dy) * (s * s) := by ring
    rw [hr, hd, one_mul]
  linarith

theorem flightLoop_oob_far (g : BubbleGrid) (hg : ∀ e ∈ g, e.2 = none)
    {dx dy : ℚ} (hd : dx * dx + dy * dy = 1) :
    ∀ (n j : Nat) (px py t : ℚ), 1 ≤ n → 1 ≤ j → 52 ≤ n + j →
      px = dx * (3 / 4 * ((j : ℚ) - 1)) → py = dy * (3 / 4 * ((j : ℚ) - 1)) →
      t = 3 / 4 * (j : ℚ) →
      flightLoop g (dx, dy) n (px, py) t = .oob := by
  intro n
  induction n with
  | zero =>
    intro j px py t h1 _ _ _ _ _
    exact absurd h1 (by omega)
  | succ n ih =>
    intro j px py t _ hj hnj hpx hpy ht
    subst hpx; subst hpy; subst ht
    simp only [flightLoop, noCollide_of_empty hg]
    by_cases hob : bulletOutOfBounds
        (dx * (3 / 4 * ((j : ℚ) - 1)), dy * (3 / 4 * ((j : ℚ) - 1))) = true
    · rw [if_pos hob]
    · rw [if_neg hob]
      have hj49 : j ≤ 49 := by
        by_contra hgt
        push_neg at hgt
        apply hob
        apply bulletOOB_of_far hd
        have h50 : 50 ≤ j := hgt
        have h50q : (50 : ℚ) ≤ (j : ℚ) := by exact_mod_cast h50
        have hu : (49 : ℚ) ≤ (j : ℚ) - 1 := by linarith
        nlinarith [mul_le_mul hu hu (by norm_num) (by linarith)]
      have hn1 : 1 ≤ n := by omega
      refine ih (j + 1) _ _ _ hn1 (by omega) (by omega) ?_ ?_ ?_
      · push_cast
        ring
      · push_cast
        ring
      · push_cast
        ring

/-- C8: on a grid with no Colored cells, every unit-direction shot from the
origin terminates within the supplied 60 flight steps via the out-of-bounds
exit (no collision can occur), leaves the grid untouched and costs exactly
the 10-point penalty. -/
theorem C8_empty_grid_shot_oob (g : BubbleGrid) (s : Int) (bc : Color) (dx dy : ℚ)
    (hg : ∀ e ∈ g, e.2 = none) (hd : dx * dx + dy * dy = 1) :
    flightLoop g (dx, dy) 60 (0, 0) 0 = .oob ∧
    fireBullet ⟨g, s⟩ bc (dx, dy) 60 = (⟨g, s - 10⟩, .oobExit (checkWin g)) := by
  have hoob0 : ¬bulletOutOfBounds ((0 : ℚ), (0 : ℚ)) = true := by
    simp only [bulletOutOfBounds, playgroundWidth, playgroundHeight, decide_eq_true_eq]
    norm_num
  have hfl : flightLoop g (dx, dy) 60 (0, 0) 0 = .oob := by
    show flightLoop g (dx, dy) (59 + 1) (0, 0) 0 = .oob
    rw [flightLoop, noCollide_of_empty hg]
    dsimp only
    rw [if_neg hoob0]
    refine flightLoop_oob_far g hg hd 59 1 _ _ _ (by omega) (by omega) (by omega) ?_ ?_ ?_
    · dsimp only
      push_cast
      ring
    · dsimp only
      push_cast
      ring
    · dsimp only
      push_cast
      ring
  refine ⟨hfl, ?_⟩
  simp only [fireBullet, hfl]

theorem unit_up : (0 : ℚ) * 0 + 1 * 1 = 1 := by norm_num

/-- C8 witness: an all-Empty one-cell grid, shot straight up: out-of-bounds
exit, grid unchanged, score down by 10. -/
theorem C8_witness :
    (∀ e ∈ ([((0, 2), (none : Cell))] : BubbleGrid), e.2 = none) ∧
    (0 : ℚ) * 0 + 1 * 1 = 1 ∧
    flightLoop [((0, 2), (none : Cell))] (0, 1) 60 (0, 0) 0 = .oob ∧
    fireBullet ⟨[((0, 2), (none : Cell))], 0⟩ Color.orange (0, 1) 60 =
      (⟨[((0, 2), (none : Cell))], 0 - 10⟩,
        .oobExit (checkWin [((0, 2), (none : Cell))])) := by
  have hmain := C8_empty_grid_shot_oob [((0, 2), (none : Cell))] 0 Color.orange 0 1
    (by decide) unit_up
  exact ⟨by decide, unit_up, hmain.1, hmain.2⟩
